import Mathlib

/-!
A verification development for the claude-orchestrator coordination and memory
substrate.  The Python sources (`consolidation.py`, `blackboard.py`,
`memory_lite.py`) are shallowly embedded as executable Lean definitions:
floats become rationals (or reals where `exp`/`sqrt` genuinely occur),
database tables become lists or finite maps keyed as in the schema,
wall-clock instants become explicit numeric parameters, and fallible
operations return `Except` or explicit result values.
-/

namespace Orchestrator

attribute [local semireducible] Rat.add Rat.mul Rat.sub Rat.inv Rat.ofScientific

/-! ## Importance scoring (`MemoryConsolidator._calculate_importance`) -/

/-- Substring test on character lists, mirroring Python's `needle in haystack`. -/
def substrIn (needle : List Char) : List Char → Bool
  | [] => needle.isEmpty
  | c :: rest => needle.isPrefixOf (c :: rest) || substrIn needle rest

/-- The high-importance indicator lexicon from `_calculate_importance`. -/
def high_indicators : List String :=
  ["error", "exception", "failed", "failure", "critical",
   "security", "vulnerability", "breach", "exploit",
   "decision:", "decided to", "choosing", "architectural",
   "breaking change", "deprecated", "removed",
   "user preference", "configuration", "setting",
   "bug", "fix", "patch", "workaround",
   "performance issue", "bottleneck", "optimization"]

/-- The low-importance indicator lexicon from `_calculate_importance`. -/
def low_indicators : List String :=
  ["debug:", "trace:", "verbose:",
   "status: ok", "success", "completed normally",
   "starting", "initialized", "loading",
   "info:", "running", "processing"]

/-- Number of indicators of the lexicon occurring in the (lower-cased) content,
mirroring `sum(1 for indicator in indicators if indicator in content_lower)`. -/
def countIndicators (lex : List String) (contentLower : List Char) : Nat :=
  (lex.filter (fun ind => substrIn ind.data contentLower)).length

/-- Model of `MemoryConsolidator._calculate_importance`: keyword-lexicon importance
score in [0,1] for a content string. -/
def calculate_importance (content : String) : ℚ :=
  let contentLower := content.data.map Char.toLower
  let high_count := countIndicators high_indicators contentLower
  let low_count := countIndicators low_indicators contentLower
  let base_score : ℚ :=
    if high_count > 0 then 7/10 + (min high_count 3 : ℚ) * (1/10)
    else if low_count > 0 then 3/10 - (min low_count 3 : ℚ) * (1/10)
    else 1/2
  let length := content.length
  let base_score :=
    if length < 50 ∨ length > 500 then min (base_score + 1/10) 1 else base_score
  max 0 (min 1 base_score)

/-- The importance-scoring rule as the specification states it (spec §4.5):
with `h = min(3, count(high))` and `l = min(3, count(low))`, the base score is
`0.7 + 0.1·h` if `h > 0`, else `0.3 − 0.1·l` if `l > 0`, else `0.5`; `+0.1`
capped at 1 when the length is below 50 or above 500; clamped to [0,1]. -/
def importance_score_spec (content : String) : ℚ :=
  let contentLower := content.data.map Char.toLower
  let h := min 3 (countIndicators high_indicators contentLower)
  let l := min 3 (countIndicators low_indicators contentLower)
  let base : ℚ :=
    if h > 0 then 7/10 + (h : ℚ) * (1/10)
    else if l > 0 then 3/10 - (l : ℚ) * (1/10)
    else 1/2
  let base :=
    if content.length < 50 ∨ content.length > 500 then min (base + 1/10) 1
    else base
  max 0 (min 1 base)

/-! ## Cosine similarity (`MemoryConsolidator._cosine_similarity`) -/

/-- Python `sum(x * y for x, y in zip(a, b))`. -/
def dotList (a b : List ℚ) : ℚ := ((a.zip b).map fun p => p.1 * p.2).sum

/-- Python `sum(x * x for x in a)`: the squared Euclidean norm of an
embedding vector. -/
def normSq (a : List ℚ) : ℚ := (a.map fun x => x * x).sum

/-- Typed failure of the scoring primitives: the source raises `ValueError`
on mismatched embedding dimensions (the spec's `DimensionMismatch`),
recording both lengths as the message does. -/
inductive MemoryError where
  | dimensionMismatch (la lb : ℕ)
  deriving DecidableEq

/-- Model of `MemoryConsolidator._cosine_similarity`.  Fails on mismatched dimensions,
returns 0 for empty or zero-norm vectors, otherwise `dot / (norm_a * norm_b)`
as a real number.  The source tests `norm_a == 0 or norm_b == 0` on the square
roots; since `Real.sqrt q = 0` iff `q = 0` for the nonnegative squared norms
(`sqrt_normSq_eq_zero_iff` below), the test is taken on the rational squared
norms, which keeps the guards decidable. -/
noncomputable def cosine_similarity (a b : List ℚ) : Except MemoryError ℝ :=
  if a.length ≠ b.length then .error (.dimensionMismatch a.length b.length)
  else if a = [] ∨ b = [] then .ok 0
  else if normSq a = 0 ∨ normSq b = 0 then .ok 0
  else .ok ((dotList a b : ℝ) / (Real.sqrt (normSq a) * Real.sqrt (normSq b)))

/-! ## Retrieval scoring (`MemoryConsolidator.calculate_retrieval_score`) -/

/-- Default `retrieval_weights` from the consolidator config:
`(relevance, importance, recency) = (0.5, 0.3, 0.2)`. -/
noncomputable def retrieval_weights : ℝ × ℝ × ℝ := (1/2, 3/10, 1/5)

/-- Recency term `exp(-decay_rate * hours_since_access)` with the default
`recency_decay_rate = 0.995`. -/
noncomputable def recencyScore (hours_since_access : ℝ) : ℝ :=
  Real.exp (-(995/1000) * hours_since_access)

/-- The weighted sum computed by `calculate_retrieval_score` once the
relevance (cosine similarity) is known:
`w_rel * relevance + w_imp * importance + w_rec * recency`. -/
noncomputable def retrieval_score_val (relevance importance hours : ℝ)
    (weights : ℝ × ℝ × ℝ) : ℝ :=
  weights.1 * relevance + weights.2.1 * importance +
    weights.2.2 * recencyScore hours

/-- Model of `MemoryConsolidator.calculate_retrieval_score`: relevance is the cosine
similarity of the two embeddings (propagating its dimension-mismatch
failure), `hours_since_access` is the elapsed time since `last_accessed` in
hours. -/
noncomputable def calculate_retrieval_score
    (memory_embedding query_embedding : List ℚ)
    (importance hours_since_access : ℝ) (weights : ℝ × ℝ × ℝ) :
    Except MemoryError ℝ :=
  (cosine_similarity memory_embedding query_embedding).map
    fun relevance =>
      retrieval_score_val relevance importance hours_since_access weights

/-! ## Episode clustering (`MemoryConsolidator._cluster_episodes`) -/

/-- An episodic memory record (`Episode` dataclass); only the fields the
clustering step reads. -/
structure Episode where
  episode_id : String
  step_number : ℕ
  role : String
  content : String
  embedding : List ℚ
  importance : Option ℚ
  deriving DecidableEq

/-- Python truthiness test
`cluster[0].importance and cluster[0].importance >= threshold`: an absent
importance, or the float 0.0, is falsy and short-circuits to a discard. -/
def importancePromotes (imp : Option ℚ) (threshold_high : ℚ) : Bool :=
  match imp with
  | none => false
  | some i => if i = 0 then false else decide (threshold_high ≤ i)

/-- The inner candidate loop of `_cluster_episodes`: scan the episode list,
skip candidates already clustered, stop once the cluster has reached
`max_size`, and append a candidate (marking it clustered) when the similarity
test against the seed passes.  The real-valued test
`cosine_similarity(seed.embedding, candidate.embedding) >= threshold` is
abstracted as the Boolean `sim seed candidate`.  Returns the grown cluster
and the grown clustered-id list. -/
def addMembers (sim : Episode → Episode → Bool) (max_size : ℕ) (seed : Episode) :
    List Episode → List String → List Episode → List Episode × List String
  | [], clustered, cluster => (cluster, clustered)
  | cand :: rest, clustered, cluster =>
    if cand.episode_id ∈ clustered then
      addMembers sim max_size seed rest clustered cluster
    else if max_size ≤ cluster.length then (cluster, clustered)
    else if sim seed cand then
      addMembers sim max_size seed rest (cand.episode_id :: clustered)
        (cluster ++ [cand])
    else addMembers sim max_size seed rest clustered cluster

/-- The outer seed loop of `_cluster_episodes`: each not-yet-clustered episode
becomes the seed of a new cluster grown by `addMembers`; a grown cluster is
kept when it reaches `min_size`, or when its seed's importance promotes a
smaller cluster; members of a dropped cluster stay marked as clustered. -/
def clusterLoop (sim : Episode → Episode → Bool) (min_size max_size : ℕ)
    (threshold_high : ℚ) (all : List Episode) :
    List Episode → List String → List (List Episode)
  | [], _ => []
  | seed :: pending, clustered =>
    if seed.episode_id ∈ clustered then
      clusterLoop sim min_size max_size threshold_high all pending clustered
    else
      let grown := addMembers sim max_size seed all
        (seed.episode_id :: clustered) [seed]
      if min_size ≤ grown.1.length then
        grown.1 :: clusterLoop sim min_size max_size threshold_high all pending grown.2
      else if importancePromotes seed.importance threshold_high then
        grown.1 :: clusterLoop sim min_size max_size threshold_high all pending grown.2
      else clusterLoop sim min_size max_size threshold_high all pending grown.2

/-- Model of `MemoryConsolidator._cluster_episodes` with config values
`min_cluster_size`, `max_cluster_size`, `importance_threshold_high`
(defaults 2, 10, 0.7) and the similarity test `sim`. -/
def cluster_episodes (sim : Episode → Episode → Bool) (min_size max_size : ℕ)
    (threshold_high : ℚ) (episodes : List Episode) : List (List Episode) :=
  clusterLoop sim min_size max_size threshold_high episodes episodes []

/-! ## Semantic-node upsert (`MemoryConsolidator._upsert_semantic_node`) -/

/-- A row of the `semantic_memory` table (keyed by `name`); `sources` is
stored as a JSON array in a TEXT column, modelled as the decoded list. -/
structure SemanticNodeRow where
  node_type : String
  description : String
  importance : ℚ
  sources : List String
  created_at : ℕ
  last_updated : ℕ
  deriving DecidableEq

/-- The `SemanticNode` dataclass fields the upsert reads. -/
structure SemanticNodeIn where
  name : String
  node_type : String
  description : String
  importance : ℚ
  sources : List String
  deriving DecidableEq

/-- Model of `MemoryConsolidator._upsert_semantic_node` on the `semantic_memory` table
(a map from `name` to row).  Update path: the source computes

`merged_sources = list(set(json.loads(existing['sources'])
    if isinstance(existing['sources'], str)
    else existing['sources'] + node.sources))`.

The stored column is always a JSON string (it is written with
`json.dumps`), so the `isinstance` branch is taken, and by Python's
conditional-expression grouping the trailing `+ node.sources` belongs to the
`else` operand only: the update deduplicates the existing sources and drops
`node.sources`.  That is modelled as `existing.sources.dedup` (the
`list(set(...))` order is unspecified in Python; only membership matters
below).  The update then overwrites `description`, takes
`MAX(importance, node.importance)`, and sets `last_updated`; the insert path
writes the node verbatim with both timestamps.  Returns the new table and
the `True`-if-created flag. -/
def upsert_semantic_node (table : String → Option SemanticNodeRow)
    (node : SemanticNodeIn) (now : ℕ) :
    (String → Option SemanticNodeRow) × Bool :=
  match table node.name with
  | some existing =>
    let merged_sources := existing.sources.dedup
    (fun n => if n = node.name then
        some { existing with
               description := node.description
               importance := max existing.importance node.importance
               sources := merged_sources
               last_updated := now }
      else table n, false)
  | none =>
    (fun n => if n = node.name then
        some ⟨node.node_type, node.description, node.importance,
              node.sources, now, now⟩
      else table n, true)

/-! ## Relation upsert (`MemoryConsolidator._upsert_relation`) -/

/-- A row of the `semantic_relations` table; `valid_to = none` means the
relation is currently active.  Timestamps are abstract instants (`ℕ`). -/
structure RelationRow where
  source : String
  relation_type : String
  target : String
  strength : ℚ
  valid_from : ℕ
  valid_to : Option ℕ
  metadata : Option String
  deriving DecidableEq

/-- The `Relation` dataclass fields the upsert reads. -/
structure RelationIn where
  source : String
  relation_type : String
  target : String
  strength : ℚ
  valid_from : Option ℕ
  valid_to : Option ℕ
  metadata : Option String
  deriving DecidableEq

/-- Row matches the (source, relation_type, target) triple and is active
(`valid_to IS NULL`). -/
def tripleActive (s rt t : String) (r : RelationRow) : Bool :=
  r.source = s ∧ r.relation_type = rt ∧ r.target = t ∧ r.valid_to = none

/-- Row matches the triple and was closed at instant `now`. -/
def tripleClosedAt (s rt t : String) (now : ℕ) (r : RelationRow) : Bool :=
  r.source = s ∧ r.relation_type = rt ∧ r.target = t ∧ r.valid_to = some now

/-- The `UPDATE ... WHERE relation_id = ?` step applied to the row found by
`fetchone()`: close the first active row for the triple, leave the rest. -/
def closeFirstActive (s rt t : String) (now : ℕ) :
    List RelationRow → List RelationRow
  | [] => []
  | r :: rest =>
    if tripleActive s rt t r then { r with valid_to := some now } :: rest
    else r :: closeFirstActive s rt t now rest

/-- Model of `MemoryConsolidator._upsert_relation`: if an active row for the triple
exists, set its `valid_to` to now; then insert a new row with the given
strength and metadata, `valid_from` defaulting to now
(`relation.valid_from or now`). -/
def upsert_relation (rows : List RelationRow) (rel : RelationIn) (now : ℕ) :
    List RelationRow :=
  closeFirstActive rel.source rel.relation_type rel.target now rows ++
    [⟨rel.source, rel.relation_type, rel.target, rel.strength,
      rel.valid_from.getD now, rel.valid_to, rel.metadata⟩]

/-! ## Pattern utility (`MemoryConsolidator.calculate_utility_score` and
`MemoryLite.record_pattern`) -/

/-- Model of `MemoryConsolidator.calculate_utility_score` with the config default
`pattern_decay_rate = 0.01`; `days_since` is the integer day count of the
source's `(datetime.now() - last_used).days`, `max_times` is the
`max_times_for_utility` config value (default 100). -/
noncomputable def calculate_utility_score (times_used : ℕ) (success_rate : ℝ)
    (days_since : ℕ) (max_times : ℕ) : ℝ :=
  let usage_score : ℝ := min ((times_used : ℝ) / (max_times : ℝ)) 1
  let recency : ℝ := Real.exp (-(1/100) * (days_since : ℝ))
  (4/10) * usage_score + (3/10) * success_rate + (3/10) * recency

/-- The pattern-utility formula as the specification states it (spec §4.7):
`U = 0.4 · min(times_used / max_times, 1) + 0.3 · success_rate
+ 0.3 · exp(−μ · days_since_last_used)` with `μ = 0.01`. -/
noncomputable def utility_score_spec (times_used : ℕ) (success_rate : ℝ)
    (days_since : ℕ) (max_times : ℕ) : ℝ :=
  (4/10) * min ((times_used : ℝ) / (max_times : ℝ)) 1 +
    (3/10) * success_rate +
    (3/10) * Real.exp (-(1/100) * (days_since : ℝ))

/-- Model of `MemoryLite._calculate_recency`: `exp(−0.995 · hours_since_access)`, or
0.5 when there is no recorded timestamp. -/
noncomputable def calculate_recency (hours_since_access : Option ℝ) : ℝ :=
  match hours_since_access with
  | none => 1/2
  | some h => Real.exp (-(995/1000) * h)

/-- The update branch of `MemoryLite.record_pattern` for an existing pattern
row: increments `times_used`, re-averages `success_rate`, and recomputes
`utility_score = min(1.0, ((times_used * 0.4) + (new_rate * 0.3) +
(recency * 0.3)) / 10)` where `recency = _calculate_recency(last_used)`.
Returns the stored `(times_used, success_rate, utility_score)`. -/
noncomputable def record_pattern_update (old_times_used : ℕ)
    (old_success_rate : ℝ) (hours_since_last_used : Option ℝ)
    (success : Bool) : ℕ × ℝ × ℝ :=
  let times_used := old_times_used + 1
  let new_rate := (old_success_rate * (old_times_used : ℝ) +
      (if success then 1 else 0)) / (times_used : ℝ)
  let recency := calculate_recency hours_since_last_used
  let utility := (times_used : ℝ) * (4/10) + new_rate * (3/10) +
      recency * (3/10)
  (times_used, new_rate, min 1 (utility / 10))

/-! ## Retry wrapper (`blackboard.retry_on_failure`) -/

/-- Outcome of one invocation of the wrapped store operation: success, a
transient error (`redis.ConnectionError` / `redis.TimeoutError`, caught by
the wrapper), or any other exception (not caught). -/
inductive CallOutcome (α : Type) where
  | ok (v : α)
  | transient
  | fatal
  deriving DecidableEq

/-- What the wrapper ultimately does: return the value, raise
`ConnectionError` (the spec's `ConnectionFailure`) after exhausting the
attempts, or let a non-transient exception from the recorded attempt
propagate. -/
inductive RetryResult (α : Type) where
  | ok (v : α)
  | connectionFailure
  | fatal (attempt : ℕ)
  deriving DecidableEq

/-- The `for attempt in range(max_retries)` loop of `retry_on_failure`,
recursing on the remaining attempts.  After a transient failure on any
attempt but the last, the wrapper sleeps `delay * (attempt + 1)` seconds and
retries; on the last attempt it does not sleep, and the loop falls through
to `raise ConnectionError`.  Returns the result together with the list of
sleeps performed, in order. -/
def retryGo {α : Type} (op : ℕ → CallOutcome α) (delay : ℚ) :
    ℕ → ℕ → RetryResult α × List ℚ
  | 0, _ => (.connectionFailure, [])
  | remaining + 1, attempt =>
    match op attempt with
    | .ok v => (.ok v, [])
    | .fatal => (.fatal attempt, [])
    | .transient =>
      if remaining = 0 then (.connectionFailure, [])
      else
        let r := retryGo op delay remaining (attempt + 1)
        (r.1, delay * (attempt + 1) :: r.2)

/-- Model of `blackboard.retry_on_failure(max_retries, delay)` applied to an operation
whose outcome on the n-th attempt (0-based) is `op n`; decorator defaults
are `max_retries = 3`, `delay = 0.5`. -/
def retry_on_failure {α : Type} (op : ℕ → CallOutcome α) (max_retries : ℕ)
    (delay : ℚ) : RetryResult α × List ℚ :=
  retryGo op delay max_retries 0

/-! ## Blocking lock acquisition (`Blackboard.acquire_lock`, blocking path) -/

/-- Result of the blocking acquisition loop: the lock was acquired on the
given attempt, or the loop raised `LockAcquisitionError` (the spec's
`LockTimeout`) on the given attempt with the given elapsed time. -/
inductive LockResult where
  | acquired (attempt : ℕ)
  | lockTimeout (attempt : ℕ) (elapsed : ℚ)
  deriving DecidableEq

/-- The `while True` polling loop of the blocking `acquire_lock`.  `avail n`
is the outcome of the n-th conditional put (`SET NX`): `true` when the lock
key was absent and the marker was written, `false` when the key was held so
the store is unchanged.  Time is modelled as the accumulated sleeps: after a
failed attempt the loop checks `elapsed >= blocking_timeout`, then sleeps
`min(wait_time, 1.0)` seconds and doubles `wait_time` (initially 0.01).
`fuel` bounds the recursion; `none` means the fuel ran out before the loop
returned. -/
def acquireLoop (avail : ℕ → Bool) (blocking_timeout : ℚ) :
    ℕ → ℕ → ℚ → ℚ → Option LockResult
  | 0, _, _, _ => none
  | fuel + 1, attempt, elapsed, wait =>
    if avail attempt then some (.acquired attempt)
    else if blocking_timeout ≤ elapsed then
      some (.lockTimeout attempt elapsed)
    else
      acquireLoop avail blocking_timeout fuel (attempt + 1)
        (elapsed + min wait 1) (wait * 2)

/-- Model of `Blackboard.acquire_lock(resource, timeout_ms, blocking=True,
blocking_timeout)`: start polling with `wait_time = 0.01` and no elapsed
time. -/
def acquire_lock_blocking (avail : ℕ → Bool) (blocking_timeout : ℚ)
    (fuel : ℕ) : Option LockResult :=
  acquireLoop avail blocking_timeout fuel 0 0 (1/100)

/-- The k-th sleep of the blocking loop (0-based): exponential backoff
starting at 10 ms, doubling each failure, capped at 1 s. -/
def backoffSleep (k : ℕ) : ℚ := min ((1/100) * 2 ^ k) 1

/-- Total time slept before the k-th conditional-put attempt. -/
def backoffElapsed (k : ℕ) : ℚ := ∑ i in Finset.range k, backoffSleep i

/-! ## Embedded-store node creation (`MemoryLite.create_node`) -/

/-- A row of the embedded store's `nodes` table.  Columns absent from the
`INSERT OR REPLACE` statement (`access_count`, `created_at`,
`last_accessed`) take their schema defaults. -/
structure NodeRow where
  id : String
  node_type : String
  content : String
  metadata : String
  importance : ℚ
  access_count : ℕ
  created_at : ℕ
  last_accessed : ℕ
  valid_from : Option String
  valid_until : Option String
  deriving DecidableEq

/-- The node id computed by `MemoryLite.create_node`:
`hashlib.sha256(f"{node_type}:{content}".encode()).hexdigest()[:16]`.
The SHA-256 hex digest is an external library primitive, modelled as the
abstract function `sha256hex`. -/
def node_id (sha256hex : String → String) (node_type content : String) :
    String :=
  (sha256hex (node_type ++ ":" ++ content)).take 16

/-- Model of `MemoryLite.create_node` on the `nodes` table, a row list.
`INSERT OR REPLACE` under the `id` primary key deletes any conflicting row
and inserts the new one; the defaulted columns reset (`access_count` to 0,
both timestamps to now).  Returns the node id and the new table. -/
def create_node (sha256hex : String → String) (table : List NodeRow)
    (node_type content metadata : String) (importance : ℚ)
    (valid_from valid_until : Option String) (now : ℕ) :
    String × List NodeRow :=
  let id := node_id sha256hex node_type content
  (id, table.filter (fun r => r.id ≠ id) ++
    [⟨id, node_type, content, metadata, importance, 0, now, now,
      valid_from, valid_until⟩])

/-! ## Claim theorems -/

/-- C1: after two upserts of the same node name with source sets A and B, the
claim says the stored sources are A∪B; the code drops B.  Evidence at the
failing input: first upsert of node `svc_a` with sources `["e1"]`, second
with sources `["e2"]` and a higher importance.  The stored node keeps only
`["e1"]` (so `"e2"` is lost), while importance is the max, the description
is overwritten, and `last_updated` is set by the later upsert. -/
theorem upsert_semantic_node_drops_new_sources :
    ((upsert_semantic_node
        (upsert_semantic_node (fun _ => none)
          ⟨"svc_a", "service", "first description", 1/2, ["e1"]⟩ 0).1
        ⟨"svc_a", "service", "second description", 3/4, ["e2"]⟩ 1).1 ("svc_a") =
      some ⟨"service", "second description", max (1/2) (3/4), ["e1"], 0, 1⟩) ∧
    "e2" ∉ ["e1"] := by
  refine ⟨by decide, by decide⟩

/-- C10: `MemoryLite.create_node` is deterministic and idempotent on
identity: the returned id is the truncated hash of `node_type:content` only,
so a second call with the same type and content returns the same id; the
resulting table holds exactly one row under that id, carrying the second
call's metadata, importance and validity interval, and all other rows are
untouched. -/
theorem create_node_identity (sha256hex : String → String) (table : List NodeRow)
    (node_type content m₁ m₂ : String) (i₁ i₂ : ℚ)
    (vf₁ vu₁ vf₂ vu₂ : Option String) (now₁ now₂ : ℕ) :
    (create_node sha256hex table node_type content m₁ i₁ vf₁ vu₁ now₁).1 =
        node_id sha256hex node_type content ∧
    (create_node sha256hex
        (create_node sha256hex table node_type content m₁ i₁ vf₁ vu₁ now₁).2
        node_type content m₂ i₂ vf₂ vu₂ now₂).1 =
      (create_node sha256hex table node_type content m₁ i₁ vf₁ vu₁ now₁).1 ∧
    (create_node sha256hex
        (create_node sha256hex table node_type content m₁ i₁ vf₁ vu₁ now₁).2
        node_type content m₂ i₂ vf₂ vu₂ now₂).2.filter
        (fun r => r.id = node_id sha256hex node_type content) =
      [⟨node_id sha256hex node_type content, node_type, content, m₂, i₂, 0,
        now₂, now₂, vf₂, vu₂⟩] ∧
    (create_node sha256hex
        (create_node sha256hex table node_type content m₁ i₁ vf₁ vu₁ now₁).2
        node_type content m₂ i₂ vf₂ vu₂ now₂).2.filter
        (fun r => r.id ≠ node_id sha256hex node_type content) =
      table.filter (fun r => r.id ≠ node_id sha256hex node_type content) := by
  refine ⟨by simp only [create_node], by simp only [create_node], ?_, ?_⟩ <;>
    simp [create_node, List.filter_append, List.filter_filter]

/-- C3 counterexample: with every attempt failing transiently and the
decorator defaults (`max_retries = 3`, `delay = 0.5`), the wrapper performs
exactly two sleeps, of 0.5 s and 1.0 s, before raising `ConnectionError`;
the claimed delay sequence 0.5 s, 1.0 s, 1.5 s never occurs, because the
third (last) attempt is followed by no sleep. -/
theorem retry_on_failure_delay_counterexample :
    retry_on_failure (fun _ => (CallOutcome.transient : CallOutcome Unit)) 3 (1/2) =
      (RetryResult.connectionFailure, [1/2, 1]) ∧
    [(1/2 : ℚ), 1] ≠ [1/2, 1, 3/2] := by
  exact ⟨rfl, by decide⟩

/-- C3 (amended): a store operation failing with transient errors is
attempted up to 3 times in total (so retried up to twice), with linearly
increasing delays of 0.5 s then 1.0 s between consecutive attempts, after
which the failure is surfaced as `ConnectionFailure`; a successful or
non-transiently failing first attempt is never retried and never sleeps. -/
theorem retry_on_failure_retry_policy {α : Type} (op : ℕ → CallOutcome α) :
    ((∀ n, op n = .transient) →
      retry_on_failure op 3 (1/2) =
        (RetryResult.connectionFailure, [1/2, 1])) ∧
    (∀ v, op 0 = .ok v → retry_on_failure op 3 (1/2) = (.ok v, [])) ∧
    (op 0 = .fatal → retry_on_failure op 3 (1/2) = (.fatal 0, [])) := by
  refine ⟨fun h => ?_, fun v h => ?_, fun h => ?_⟩
  · norm_num [retry_on_failure, retryGo, h]
  · norm_num [retry_on_failure, retryGo, h]
  · norm_num [retry_on_failure, retryGo, h]

/-- C3 witness: the three amended behaviours at concrete operations. -/
theorem retry_on_failure_retry_policy_witness :
    retry_on_failure (fun _ => (CallOutcome.transient : CallOutcome Unit)) 3 (1/2) =
        (RetryResult.connectionFailure, [1/2, 1]) ∧
    retry_on_failure (fun _ => CallOutcome.ok ()) 3 (1/2) =
        (RetryResult.ok (), []) ∧
    retry_on_failure (fun _ => (CallOutcome.fatal : CallOutcome Unit)) 3 (1/2) =
        (RetryResult.fatal 0, []) :=
  ⟨(retry_on_failure_retry_policy _).1 (fun _ => rfl),
   (retry_on_failure_retry_policy _).2.1 () rfl,
   (retry_on_failure_retry_policy _).2.2 rfl⟩

/-- C2 counterexample: the embedded store's pattern update does not compute
the spec's utility formula.  At `times_used = 2`, `success_rate = 1` and a
just-used pattern (zero elapsed time, so both recency terms are
`exp 0 = 1`), `record_pattern` stores `min(1, (0.4·2 + 0.3 + 0.3)/10) =
0.14`, while the consolidator's scorer gives `0.4·min(2/100, 1) + 0.3 + 0.3
= 0.608`. -/
theorem record_pattern_utility_differs_from_consolidator :
    (record_pattern_update 1 1 (some 0) true).2.2 ≠
      calculate_utility_score 2 1 0 100 := by
  have hL : (record_pattern_update 1 1 (some 0) true).2.2 = 7/50 := by
    unfold record_pattern_update calculate_recency
    norm_num [Real.exp_zero]
  have hR : calculate_utility_score 2 1 0 100 = 76/125 := by
    unfold calculate_utility_score
    norm_num [Real.exp_zero]
  rw [hL, hR]
  norm_num

/-- C2 (amended): the consolidator's `calculate_utility_score` computes the
spec formula `U = 0.4·min(times_used/max_times, 1) + 0.3·success_rate +
0.3·exp(−0.01·days_since_last_used)`; the embedded store's `record_pattern`
computes a different quantity, `min(1, (0.4·times_used + 0.3·success_rate +
0.3·exp(−0.995·hours_since_last_use))/10)`. -/
theorem utility_score_paths :
    (∀ (t : ℕ) (s : ℝ) (d m : ℕ),
      calculate_utility_score t s d m = utility_score_spec t s d m) ∧
    (∀ (ot : ℕ) (os : ℝ) (lh : Option ℝ) (su : Bool),
      (record_pattern_update ot os lh su).2.2 =
        min 1 ((((ot + 1 : ℕ) : ℝ) * (4/10) +
          ((os * (ot : ℝ) + if su then 1 else 0) / ((ot + 1 : ℕ) : ℝ)) * (3/10) +
          calculate_recency lh * (3/10)) / 10)) :=
  ⟨fun _ _ _ _ => rfl, fun _ _ _ _ => rfl⟩

/-- C7 counterexample: the claim (following spec §8 S4) asserts
`score("debug: loaded config") ≤ 0.3`, but the high-importance indicator
`"bug"` is a substring of `"debug"`, so the content has one high indicator
and the code scores it `0.7 + 0.1 + 0.1 = 0.9`. -/
theorem importance_debug_example_refuted :
    calculate_importance ("debug: loaded config") = 9/10 ∧
    ¬ calculate_importance ("debug: loaded config") ≤ 3/10 := by
  refine ⟨by decide, by decide⟩

/-- C7 (amended): the importance score follows the spec rule (base from
capped indicator counts, length adjustment, clamp) and always lies in [0,1];
`score("Error: null pointer in auth module") ≥ 0.8` and
`score("Started.") = 0.6` as claimed, but
`score("debug: loaded config") = 0.9`, not ≤ 0.3, because the high
indicator `"bug"` occurs inside `"debug"`. -/
theorem calculate_importance_matches_spec :
    (∀ content, calculate_importance content = importance_score_spec content ∧
      0 ≤ calculate_importance content ∧ calculate_importance content ≤ 1) ∧
    (8/10 : ℚ) ≤ calculate_importance ("Error: null pointer in auth module") ∧
    calculate_importance ("debug: loaded config") = 9/10 ∧
    calculate_importance ("Started.") = 3/5 := by
  refine ⟨fun content => ⟨?_, ?_, ?_⟩, by decide, by decide, by decide⟩
  · unfold calculate_importance importance_score_spec
    have hbase : ∀ hc lc : ℕ,
        (if hc > 0 then (7/10 : ℚ) + (min hc 3 : ℚ) * (1/10)
         else if lc > 0 then (3/10 : ℚ) - (min lc 3 : ℚ) * (1/10)
         else 1/2) =
        (if min 3 hc > 0 then (7/10 : ℚ) + ((min 3 hc : ℕ) : ℚ) * (1/10)
         else if min 3 lc > 0 then (3/10 : ℚ) - ((min 3 lc : ℕ) : ℚ) * (1/10)
         else 1/2) := by
      intro hc lc
      rcases Nat.eq_zero_or_pos hc with h | h
      · rcases Nat.eq_zero_or_pos lc with h' | h' <;>
          simp [h, h', Nat.min_comm]
      · have h3 : 0 < min 3 hc := by omega
        simp [h, h3, Nat.min_comm]
    simp only [hbase]
  · unfold calculate_importance
    exact le_max_left _ _
  · unfold calculate_importance
    exact max_le (by norm_num) (min_le_left _ _)

/-- C9: with the default weights (0.5, 0.3, 0.2) and decay rate 0.995, the
retrieval score strictly decreases as the hours since last access increase,
holding relevance and importance fixed; and `calculate_retrieval_score` is
exactly that weighted sum applied to the cosine relevance. -/
theorem retrieval_score_recency_mono :
    (∀ relevance importance h₁ h₂ : ℝ, h₁ < h₂ →
      retrieval_score_val relevance importance h₂ retrieval_weights <
        retrieval_score_val relevance importance h₁ retrieval_weights) ∧
    (∀ mem query imp hours w,
      calculate_retrieval_score mem query imp hours w =
        (cosine_similarity mem query).map
          fun rel => retrieval_score_val rel imp hours w) := by
  refine ⟨fun rel imp h₁ h₂ hlt => ?_, fun _ _ _ _ _ => rfl⟩
  have hexp : Real.exp (-(995/1000) * h₂) < Real.exp (-(995/1000) * h₁) :=
    Real.exp_lt_exp.mpr (by nlinarith)
  simp only [retrieval_score_val, retrieval_weights, recencyScore]
  norm_num
  linarith

/-- C9 witness: concrete strict decrease moving from 0 to 1 hour since the
last access. -/
theorem retrieval_score_recency_mono_witness :
    (0:ℝ) < 1 ∧
    retrieval_score_val 1 (1/2) 1 retrieval_weights <
      retrieval_score_val 1 (1/2) 0 retrieval_weights :=
  ⟨one_pos, retrieval_score_recency_mono.1 1 (1/2) 0 1 one_pos⟩

/-- Invariant of the blocking-lock polling loop: entering the loop at
attempt `k` with elapsed time `backoffElapsed k` and wait `0.01·2^k`, after
all earlier attempts failed, any returned result either acquired the lock on
the first available attempt, or timed out with elapsed time at least the
budget, equal to the accumulated capped-doubling sleeps, and with every
conditional put up to that attempt having failed. -/
theorem acquireLoop_spec (avail : ℕ → Bool) (bt : ℚ) :
    ∀ (fuel k : ℕ), (∀ i, i < k → avail i = false) →
      ∀ r, acquireLoop avail bt fuel k (backoffElapsed k) ((1/100) * 2 ^ k) =
          some r →
        (∀ n, r = .acquired n → avail n = true ∧ ∀ i, i < n → avail i = false) ∧
        (∀ n e, r = .lockTimeout n e →
          bt ≤ e ∧ e = backoffElapsed n ∧ ∀ i, i ≤ n → avail i = false) := by
  intro fuel
  induction fuel with
  | zero =>
    intro k hk r hr
    simp [acquireLoop] at hr
  | succ f ih =>
    intro k hk r hr
    rw [acquireLoop] at hr
    by_cases ha : avail k
    · rw [if_pos ha] at hr
      have hr' : LockResult.acquired k = r := Option.some.inj hr
      subst hr'
      constructor
      · intro n hn
        obtain rfl : k = n := by cases hn; rfl
        exact ⟨ha, hk⟩
      · intro n e hn
        cases hn
    · rw [if_neg ha] at hr
      by_cases hb : bt ≤ backoffElapsed k
      · rw [if_pos hb] at hr
        have hr' : LockResult.lockTimeout k (backoffElapsed k) = r :=
          Option.some.inj hr
        subst hr'
        constructor
        · intro n hn
          cases hn
        · intro n e hn
          obtain ⟨rfl, rfl⟩ : k = n ∧ backoffElapsed k = e := by
            cases hn; exact ⟨rfl, rfl⟩
          refine ⟨hb, rfl, fun i hi => ?_⟩
          rcases Nat.lt_or_ge i k with h | h
          · exact hk i h
          · obtain rfl : i = k := Nat.le_antisymm hi h
            exact Bool.eq_false_iff.mpr ha
      · rw [if_neg hb] at hr
        have hstep : backoffElapsed k + min ((1/100) * 2 ^ k) 1 =
            backoffElapsed (k + 1) := by
          simp [backoffElapsed, Finset.sum_range_succ, backoffSleep]
        have hwait : (1/100 : ℚ) * 2 ^ k * 2 = (1/100) * 2 ^ (k + 1) := by
          ring
        rw [hstep, hwait] at hr
        refine ih (k + 1) (fun i hi => ?_) r hr
        rcases Nat.lt_or_ge i k with h | h
        · exact hk i h
        · obtain rfl : i = k := by omega
          exact Bool.eq_false_iff.mpr ha

/-- C4: any outcome of the blocking `acquire_lock` polling loop satisfies
the claim: the sleeps are the exponential backoff starting at 10 ms,
doubling each failure and capped at 1 s (their running total is
`backoffElapsed`); a `LockTimeout` is raised only once the accumulated
elapsed time has reached `blocking_timeout`; and on that path every
conditional put (`SET NX`) up to and including the last attempt failed, so
no lock marker was written by the failed caller — nothing is leaked. -/
theorem acquire_lock_blocking_spec (avail : ℕ → Bool) (blocking_timeout : ℚ)
    (fuel : ℕ) (r : LockResult)
    (h : acquire_lock_blocking avail blocking_timeout fuel = some r) :
    (∀ n, r = .acquired n → avail n = true ∧ ∀ i, i < n → avail i = false) ∧
    (∀ n e, r = .lockTimeout n e →
      blocking_timeout ≤ e ∧ e = backoffElapsed n ∧
      ∀ i, i ≤ n → avail i = false) := by
  have h0 : acquireLoop avail blocking_timeout fuel 0 (backoffElapsed 0)
      ((1/100) * 2 ^ 0) = some r := by
    have e1 : backoffElapsed 0 = 0 := rfl
    have e2 : (1/100 : ℚ) * 2 ^ 0 = 1/100 := by norm_num
    rw [e1, e2]
    exact h
  exact acquireLoop_spec avail blocking_timeout fuel 0
    (fun i hi => absurd hi (Nat.not_lt_zero i)) r h0

/-- C4 witness: with the lock never available and a 15 ms budget, the loop
times out on the third conditional put after sleeping 10 ms and 20 ms
(30 ms total elapsed), having written no marker. -/
theorem acquire_lock_blocking_spec_witness :
    (3/200 : ℚ) ≤ 3/100 ∧ (3/100 : ℚ) = backoffElapsed 2 ∧
    (∀ i, i ≤ 2 → (fun _ => false : ℕ → Bool) i = false) :=
  (acquire_lock_blocking_spec (fun _ => false) (3/200) 3
    (.lockTimeout 2 (3/100)) (by decide)).2 2 (3/100) rfl

/-- Closing the first active row for a triple leaves no active row for it,
when exactly one was active. -/
theorem closeFirstActive_active_count (s rt t : String) (now : ℕ) :
    ∀ rows : List RelationRow,
      rows.countP (tripleActive s rt t) = 1 →
      (closeFirstActive s rt t now rows).countP (tripleActive s rt t) = 0 := by
  intro rows
  induction rows with
  | nil => intro h; simp at h
  | cons r rest ih =>
    intro h
    rw [closeFirstActive]
    by_cases hr : tripleActive s rt t r = true
    · rw [if_pos hr]
      have hclosed : tripleActive s rt t { r with valid_to := some now } = false := by
        simp [tripleActive]
      have h' := h
      simp [List.countP_cons, hr] at h'
      simp only [List.countP_cons, hclosed, Bool.false_eq_true, if_false,
        Nat.add_zero, List.countP_eq_zero]
      intro a ha
      simp [h' a ha]
    · have hrf : tripleActive s rt t r = false := Bool.eq_false_iff.mpr hr
      have h' : rest.countP (tripleActive s rt t) = 1 := by
        simpa [List.countP_cons, hrf] using h
      rw [if_neg hr]
      simp [List.countP_cons, hrf, ih h']

/-- Closing the first active row for a triple creates exactly one row closed
at `now`, when exactly one row was active and no row was already closed at
`now`. -/
theorem closeFirstActive_closed_count (s rt t : String) (now : ℕ) :
    ∀ rows : List RelationRow,
      rows.countP (tripleActive s rt t) = 1 →
      (∀ r ∈ rows, r.valid_to ≠ some now) →
      (closeFirstActive s rt t now rows).countP (tripleClosedAt s rt t now) = 1 := by
  intro rows
  induction rows with
  | nil => intro h _; simp at h
  | cons r rest ih =>
    intro h hnow
    rw [closeFirstActive]
    by_cases hr : tripleActive s rt t r = true
    · rw [if_pos hr]
      have hr' := hr
      simp only [tripleActive, Bool.decide_and, Bool.and_eq_true,
        decide_eq_true_eq] at hr'
      have hclosed : tripleClosedAt s rt t now { r with valid_to := some now } = true := by
        simp [tripleClosedAt, hr'.1, hr'.2.1, hr'.2.2.1]
      have hrest : rest.countP (tripleClosedAt s rt t now) = 0 := by
        rw [List.countP_eq_zero]
        intro a ha
        simp only [tripleClosedAt, Bool.decide_and, Bool.and_eq_true,
          decide_eq_true_eq, not_and]
        intro _ _ _
        exact hnow a (List.mem_cons_of_mem _ ha)
      simp [List.countP_cons, hclosed, hrest]
    · have hrf : tripleActive s rt t r = false := Bool.eq_false_iff.mpr hr
      have hhead : tripleClosedAt s rt t now r = false := by
        have hne := hnow r (List.mem_cons_self _ _)
        simp only [tripleClosedAt, Bool.decide_and]
        simp [hne]
      have h' : rest.countP (tripleActive s rt t) = 1 := by
        simpa [List.countP_cons, hrf] using h
      rw [if_neg hr]
      simp [List.countP_cons, hhead,
        ih h' (fun a ha => hnow a (List.mem_cons_of_mem _ ha))]

/-- C5: when exactly one active record exists for the (source, type, target)
triple, no record is already closed at `now`, and the incoming relation
carries no `valid_until`, then after `upsert_relation` the rows active for
the triple are exactly the one new row with the given strength, metadata and
`valid_from` (defaulted to now), and exactly one row for the triple is
closed with `valid_until = now`. -/
theorem upsert_relation_supersession (rows : List RelationRow)
    (rel : RelationIn) (now : ℕ)
    (hone : rows.countP
      (tripleActive rel.source rel.relation_type rel.target) = 1)
    (hnow : ∀ r ∈ rows, r.valid_to ≠ some now)
    (hto : rel.valid_to = none) :
    (upsert_relation rows rel now).filter
        (tripleActive rel.source rel.relation_type rel.target) =
      [⟨rel.source, rel.relation_type, rel.target, rel.strength,
        rel.valid_from.getD now, none, rel.metadata⟩] ∧
    (upsert_relation rows rel now).countP
        (tripleClosedAt rel.source rel.relation_type rel.target now) = 1 := by
  constructor
  · rw [upsert_relation, List.filter_append]
    have h0 := closeFirstActive_active_count rel.source rel.relation_type
      rel.target now rows hone
    have hnil : (closeFirstActive rel.source rel.relation_type rel.target
        now rows).filter (tripleActive rel.source rel.relation_type rel.target) = [] := by
      rw [List.filter_eq_nil_iff]
      intro a ha
      intro hcontra
      rw [List.countP_eq_zero] at h0
      exact h0 a ha hcontra
    rw [hnil, hto]
    simp [tripleActive]
  · rw [upsert_relation, List.countP_append]
    have h1 := closeFirstActive_closed_count rel.source rel.relation_type
      rel.target now rows hone hnow
    have hnew : tripleClosedAt rel.source rel.relation_type rel.target now
        ⟨rel.source, rel.relation_type, rel.target, rel.strength,
          rel.valid_from.getD now, rel.valid_to, rel.metadata⟩ = false := by
      simp [tripleClosedAt, hto]
    rw [h1]
    simp [hnew]

/-- C5 witness: one active `svc_a → svc_b` row of strength 0.5; upserting
the triple again at instant 7 with strength 0.75 and metadata leaves exactly
that new row active and exactly one row closed at 7. -/
theorem upsert_relation_supersession_witness :
    ((upsert_relation
        [⟨"svc_a", "depends_on", "svc_b", 1/2, 0, none, none⟩]
        ⟨"svc_a", "depends_on", "svc_b", 3/4, some 5, none, some ("m")⟩ 7).filter
        (tripleActive ("svc_a") ("depends_on") ("svc_b")) =
      [⟨"svc_a", "depends_on", "svc_b", 3/4, 5, none, some ("m")⟩]) ∧
    (upsert_relation
        [⟨"svc_a", "depends_on", "svc_b", 1/2, 0, none, none⟩]
        ⟨"svc_a", "depends_on", "svc_b", 3/4, some 5, none, some ("m")⟩ 7).countP
        (tripleClosedAt ("svc_a") ("depends_on") ("svc_b") 7) = 1 :=
  upsert_relation_supersession
    [⟨"svc_a", "depends_on", "svc_b", 1/2, 0, none, none⟩]
    ⟨"svc_a", "depends_on", "svc_b", 3/4, some 5, none, some ("m")⟩ 7
    (by decide) (by decide) rfl

/-- The squared norm of an embedding is nonnegative. -/
theorem normSq_nonneg (a : List ℚ) : 0 ≤ normSq a := by
  induction a with
  | nil => simp [normSq]
  | cons x t ih =>
    have h : normSq (x :: t) = x * x + normSq t := by simp [normSq]
    rw [h]
    have := mul_self_nonneg x
    linarith

/-- The zero test on the square-root norm is the zero test on the rational
squared norm, justifying the guard in `cosine_similarity`. -/
theorem sqrt_normSq_eq_zero_iff (a : List ℚ) :
    Real.sqrt ((normSq a : ℝ)) = 0 ↔ normSq a = 0 := by
  constructor
  · intro h
    have h0 : (0:ℝ) ≤ (normSq a : ℝ) := by exact_mod_cast normSq_nonneg a
    have := (Real.sqrt_eq_zero h0).mp h
    exact_mod_cast this
  · intro h
    rw [h]
    simp

/-- Two-variable step of the Cauchy–Schwarz induction. -/
theorem cauchy_schwarz_step (x y d nA nB : ℚ) (hA : 0 ≤ nA) (hB : 0 ≤ nB)
    (hd : d ^ 2 ≤ nA * nB) :
    (x * y + d) ^ 2 ≤ (x * x + nA) * (y * y + nB) := by
  rcases hB.eq_or_lt with hB0 | hBpos
  · have hd2 : d ^ 2 = 0 := by nlinarith [sq_nonneg d]
    have hd0 : d = 0 := by
      exact (pow_eq_zero_iff (by norm_num : (2:ℕ) ≠ 0)).mp hd2
    subst hd0
    nlinarith [mul_nonneg hA (mul_self_nonneg y)]
  · nlinarith [sq_nonneg (x * nB - y * d),
      mul_nonneg (sub_nonneg.mpr hd)
        (add_nonneg (mul_self_nonneg y) hB)]

/-- Unfolding `dotList` on cons cells. -/
theorem dotList_cons (x y : ℚ) (a b : List ℚ) :
    dotList (x :: a) (y :: b) = x * y + dotList a b := by simp [dotList]

/-- Unfolding `normSq` on a cons cell. -/
theorem normSq_cons (x : ℚ) (a : List ℚ) :
    normSq (x :: a) = x * x + normSq a := by simp [normSq]

/-- Cauchy–Schwarz for the list dot product. -/
theorem dotList_sq_le_normSq_mul (a : List ℚ) :
    ∀ b, dotList a b ^ 2 ≤ normSq a * normSq b := by
  induction a with
  | nil =>
    intro b
    have h1 : dotList [] b = 0 := by simp [dotList]
    have h2 : normSq ([] : List ℚ) = 0 := by simp [normSq]
    rw [h1, h2]
    norm_num
  | cons x t ih =>
    intro b
    cases b with
    | nil =>
      have h1 : dotList (x :: t) [] = 0 := by simp [dotList]
      have h2 : normSq ([] : List ℚ) = 0 := by simp [normSq]
      rw [h1, h2]
      norm_num
    | cons y u =>
      rw [dotList_cons, normSq_cons, normSq_cons]
      exact cauchy_schwarz_step x y (dotList t u) (normSq t) (normSq u)
        (normSq_nonneg t) (normSq_nonneg u) (ih u)

/-- C8: cosine similarity fails with `DimensionMismatch` exactly on vectors
of different dimensions; an equal-dimension pair with a zero vector yields
similarity 0; and any similarity value produced from two nonzero vectors
lies in [−1, 1]. -/
theorem cosine_similarity_bounds (a b : List ℚ) :
    (a.length ≠ b.length →
      cosine_similarity a b = .error (.dimensionMismatch a.length b.length)) ∧
    (a.length = b.length → normSq a = 0 ∨ normSq b = 0 →
      cosine_similarity a b = .ok 0) ∧
    (∀ c : ℝ, cosine_similarity a b = .ok c → normSq a ≠ 0 → normSq b ≠ 0 →
      -1 ≤ c ∧ c ≤ 1) := by
  refine ⟨fun h => ?_, fun hlen h0 => ?_, fun c hc hna hnb => ?_⟩
  · rw [cosine_similarity, if_pos h]
  · rw [cosine_similarity, if_neg (by simp [hlen])]
    by_cases hemp : a = [] ∨ b = []
    · rw [if_pos hemp]
    · rw [if_neg hemp, if_pos h0]
  · rw [cosine_similarity] at hc
    split_ifs at hc with h1 h2 h3
    · rcases h2 with rfl | rfl
      · exact absurd (by simp [normSq]) hna
      · exact absurd (by simp [normSq]) hnb
    · rcases h3 with h | h
      · exact absurd h hna
      · exact absurd h hnb
    · have hceq : ((dotList a b : ℚ) : ℝ) /
          (Real.sqrt (normSq a) * Real.sqrt (normSq b)) = c :=
        Except.ok.inj hc
      have hqa : (0:ℚ) < normSq a := lt_of_le_of_ne (normSq_nonneg a) (Ne.symm hna)
      have hqb : (0:ℚ) < normSq b := lt_of_le_of_ne (normSq_nonneg b) (Ne.symm hnb)
      have hra : (0:ℝ) < ((normSq a : ℚ) : ℝ) := by exact_mod_cast hqa
      have hrb : (0:ℝ) < ((normSq b : ℚ) : ℝ) := by exact_mod_cast hqb
      have hsa : 0 < Real.sqrt ((normSq a : ℚ) : ℝ) := Real.sqrt_pos.mpr hra
      have hsb : 0 < Real.sqrt ((normSq b : ℚ) : ℝ) := Real.sqrt_pos.mpr hrb
      have hden : 0 < Real.sqrt ((normSq a : ℚ) : ℝ) *
          Real.sqrt ((normSq b : ℚ) : ℝ) := mul_pos hsa hsb
      have hcs : ((dotList a b : ℚ) : ℝ) ^ 2 ≤
          ((normSq a : ℚ) : ℝ) * ((normSq b : ℚ) : ℝ) := by
        exact_mod_cast dotList_sq_le_normSq_mul a b
      have hden2 : (Real.sqrt ((normSq a : ℚ) : ℝ) *
          Real.sqrt ((normSq b : ℚ) : ℝ)) ^ 2 =
          ((normSq a : ℚ) : ℝ) * ((normSq b : ℚ) : ℝ) := by
        rw [mul_pow, Real.sq_sqrt hra.le, Real.sq_sqrt hrb.le]
      have habs : |((dotList a b : ℚ) : ℝ)| ≤
          Real.sqrt ((normSq a : ℚ) : ℝ) * Real.sqrt ((normSq b : ℚ) : ℝ) := by
        rw [← Real.sqrt_sq_eq_abs, ← Real.sqrt_sq hden.le]
        exact Real.sqrt_le_sqrt (by rw [hden2]; exact hcs)
      have hcabs : |c| ≤ 1 := by
        rw [← hceq, abs_div, abs_of_pos hden]
        exact div_le_one_of_le₀ habs hden.le
      exact abs_le.mp hcabs

/-- C8 witness: a dimension mismatch, a zero vector, and a concrete nonzero
pair with its similarity in bounds. -/
theorem cosine_similarity_bounds_witness :
    cosine_similarity [1] [1, 2] = .error (.dimensionMismatch 1 2) ∧
    cosine_similarity [0, 0] [1, 2] = .ok 0 ∧
    (-1 ≤ ((dotList [3, 4] [4, 3] : ℚ) : ℝ) /
        (Real.sqrt (normSq [3, 4]) * Real.sqrt (normSq [4, 3])) ∧
      ((dotList [3, 4] [4, 3] : ℚ) : ℝ) /
        (Real.sqrt (normSq [3, 4]) * Real.sqrt (normSq [4, 3])) ≤ 1) :=
  ⟨(cosine_similarity_bounds [1] [1, 2]).1 (by decide),
   (cosine_similarity_bounds [0, 0] [1, 2]).2.1 (by decide) (Or.inl (by decide)),
   (cosine_similarity_bounds [3, 4] [4, 3]).2.2 _ rfl (by decide) (by decide)⟩

/-- The inner candidate loop only ever appends episodes drawn from the
scanned list that pass the similarity test against the seed. -/
theorem addMembers_shape (sim : Episode → Episode → Bool) (max_size : ℕ)
    (seed : Episode) :
    ∀ (rem : List Episode) (clustered : List String) (cluster : List Episode),
      ∃ extra, (addMembers sim max_size seed rem clustered cluster).1 =
          cluster ++ extra ∧
        ∀ x ∈ extra, x ∈ rem ∧ sim seed x = true := by
  intro rem
  induction rem with
  | nil =>
    intro clustered cluster
    exact ⟨[], by simp [addMembers], by simp⟩
  | cons cand rest ih =>
    intro clustered cluster
    rw [addMembers]
    by_cases h1 : cand.episode_id ∈ clustered
    · rw [if_pos h1]
      obtain ⟨extra, he, hx⟩ := ih clustered cluster
      exact ⟨extra, he,
        fun x hx' => ⟨List.mem_cons_of_mem _ (hx x hx').1, (hx x hx').2⟩⟩
    · rw [if_neg h1]
      by_cases h2 : max_size ≤ cluster.length
      · rw [if_pos h2]
        exact ⟨[], by simp, by simp⟩
      · rw [if_neg h2]
        by_cases h3 : sim seed cand = true
        · rw [if_pos h3]
          obtain ⟨extra, he, hx⟩ :=
            ih (cand.episode_id :: clustered) (cluster ++ [cand])
          refine ⟨cand :: extra, ?_, ?_⟩
          · rw [he, List.append_assoc]
            simp
          · intro x hx'
            rcases List.mem_cons.mp hx' with rfl | hx''
            · exact ⟨List.mem_cons_self _ _, h3⟩
            · exact ⟨List.mem_cons_of_mem _ (hx x hx'').1, (hx x hx'').2⟩
        · rw [if_neg h3]
          obtain ⟨extra, he, hx⟩ := ih clustered cluster
          exact ⟨extra, he,
            fun x hx' => ⟨List.mem_cons_of_mem _ (hx x hx').1, (hx x hx').2⟩⟩

/-- The inner candidate loop never grows a cluster beyond `max_size`. -/
theorem addMembers_length (sim : Episode → Episode → Bool) (max_size : ℕ)
    (seed : Episode) :
    ∀ (rem : List Episode) (clustered : List String) (cluster : List Episode),
      cluster.length ≤ max_size →
      (addMembers sim max_size seed rem clustered cluster).1.length ≤ max_size := by
  intro rem
  induction rem with
  | nil => intro _ cluster h; simpa [addMembers] using h
  | cons cand rest ih =>
    intro clustered cluster h
    rw [addMembers]
    by_cases h1 : cand.episode_id ∈ clustered
    · rw [if_pos h1]
      exact ih _ _ h
    · rw [if_neg h1]
      by_cases h2 : max_size ≤ cluster.length
      · rw [if_pos h2]
        exact h
      · rw [if_neg h2]
        by_cases h3 : sim seed cand = true
        · rw [if_pos h3]
          refine ih _ _ ?_
          rw [List.length_append]
          simp only [List.length_singleton]
          omega
        · rw [if_neg h3]
          exact ih _ _ h

/-- Every cluster emitted by the outer seed loop is its seed (an episode of
the pending list) followed by members from the scanned list that are similar
to the seed; it respects `max_size`, and it was kept either by reaching
`min_size` or by the seed-importance promotion rule. -/
theorem clusterLoop_spec (sim : Episode → Episode → Bool)
    (min_size max_size : ℕ) (threshold_high : ℚ) (all : List Episode) :
    ∀ (pending : List Episode) (clustered : List String) (c : List Episode),
      c ∈ clusterLoop sim min_size max_size threshold_high all pending clustered →
      ∃ seed extra, c = seed :: extra ∧ seed ∈ pending ∧
        (∀ x ∈ extra, x ∈ all ∧ sim seed x = true) ∧
        (1 ≤ max_size → c.length ≤ max_size) ∧
        (min_size ≤ c.length ∨
          importancePromotes seed.importance threshold_high = true) := by
  intro pending
  induction pending with
  | nil => intro clustered c hc; simp [clusterLoop] at hc
  | cons seed rest ih =>
    intro clustered c hc
    rw [clusterLoop] at hc
    by_cases h1 : seed.episode_id ∈ clustered
    · rw [if_pos h1] at hc
      obtain ⟨s, e, he, hs, hx, hl, hk⟩ := ih _ c hc
      exact ⟨s, e, he, List.mem_cons_of_mem _ hs, hx, hl, hk⟩
    · rw [if_neg h1] at hc
      obtain ⟨extra, hg, hx⟩ := addMembers_shape sim max_size seed all
        (seed.episode_id :: clustered) [seed]
      by_cases h2 : min_size ≤ (addMembers sim max_size seed all
          (seed.episode_id :: clustered) [seed]).1.length
      · rw [if_pos h2] at hc
        rcases List.mem_cons.mp hc with rfl | hc'
        · refine ⟨seed, extra, by simpa using hg, List.mem_cons_self _ _, hx,
            fun hm => ?_, Or.inl h2⟩
          exact addMembers_length sim max_size seed all _ [seed] (by simpa using hm)
        · obtain ⟨s, e, he, hs, hx', hl, hk⟩ := ih _ _ hc'
          exact ⟨s, e, he, List.mem_cons_of_mem _ hs, hx', hl, hk⟩
      · rw [if_neg h2] at hc
        by_cases h3 : importancePromotes seed.importance threshold_high = true
        · rw [if_pos h3] at hc
          rcases List.mem_cons.mp hc with rfl | hc'
          · refine ⟨seed, extra, by simpa using hg, List.mem_cons_self _ _, hx,
              fun hm => ?_, Or.inr h3⟩
            exact addMembers_length sim max_size seed all _ [seed] (by simpa using hm)
          · obtain ⟨s, e, he, hs, hx', hl, hk⟩ := ih _ _ hc'
            exact ⟨s, e, he, List.mem_cons_of_mem _ hs, hx', hl, hk⟩
        · rw [if_neg h3] at hc
          obtain ⟨s, e, he, hs, hx', hl, hk⟩ := ih _ _ hc
          exact ⟨s, e, he, List.mem_cons_of_mem _ hs, hx', hl, hk⟩

/-- C6: at the default parameters (`min_size = 2`, `max_size = 10`,
promotion threshold 0.7), clustering is greedy and seeded: no produced
cluster is empty; and a produced cluster `seed :: members` has its seed and
members drawn from the input, every member passed the similarity test
against the seed, the size never exceeds 10, and the cluster either has at
least 2 members or its seed's importance is ≥ 0.7 (singleton promotion). -/
theorem cluster_episodes_greedy (sim : Episode → Episode → Bool)
    (episodes : List Episode) :
    (∀ c ∈ cluster_episodes sim 2 10 (7/10) episodes, c ≠ []) ∧
    (∀ seed extra, seed :: extra ∈ cluster_episodes sim 2 10 (7/10) episodes →
      seed ∈ episodes ∧ (seed :: extra).length ≤ 10 ∧
      (∀ x ∈ extra, x ∈ episodes ∧ sim seed x = true) ∧
      (2 ≤ (seed :: extra).length ∨
        ∃ i, seed.importance = some i ∧ (7/10 : ℚ) ≤ i)) := by
  constructor
  · intro c hc
    obtain ⟨s, e, he, -, -, -, -⟩ :=
      clusterLoop_spec sim 2 10 (7/10) episodes episodes [] c hc
    simp [he]
  · intro seed extra hc
    obtain ⟨s, e, he, hs, hx, hl, hk⟩ :=
      clusterLoop_spec sim 2 10 (7/10) episodes episodes [] (seed :: extra) hc
    obtain ⟨rfl, rfl⟩ : seed = s ∧ extra = e := by
      have h1 := List.head_eq_of_cons_eq he
      have h2 := List.tail_eq_of_cons_eq he
      exact ⟨h1, h2⟩
    refine ⟨hs, hl (by norm_num), hx, ?_⟩
    rcases hk with h | h
    · exact Or.inl h
    · refine Or.inr ?_
      cases himp : seed.importance with
      | none => rw [himp] at h; simp [importancePromotes] at h
      | some i =>
        rw [himp] at h
        simp only [importancePromotes] at h
        by_cases hi : i = 0
        · rw [if_pos hi] at h; cases h
        · rw [if_neg hi] at h
          exact ⟨i, rfl, of_decide_eq_true h⟩

/-- C6 witness: three episodes where the first two share an embedding and
the third is dissimilar, under the embedding-equality similarity test; the
cluster of the first two is produced, its members are similar to the seed,
and its size 2 meets the minimum. -/
theorem cluster_episodes_greedy_witness :
    (⟨"e1", 1, "executor", "step one", [1, 0], some (1/2)⟩ : Episode) ∈
        ([⟨"e1", 1, "executor", "step one", [1, 0], some (1/2)⟩,
          ⟨"e2", 2, "executor", "step two", [1, 0], some (1/2)⟩,
          ⟨"e3", 3, "reviewer", "step three", [0, 1], some (1/2)⟩] :
          List Episode) ∧
    (([⟨"e1", 1, "executor", "step one", [1, 0], some (1/2)⟩,
       ⟨"e2", 2, "executor", "step two", [1, 0], some (1/2)⟩] :
       List Episode).length ≤ 10) ∧
    (∀ x ∈ ([⟨"e2", 2, "executor", "step two", [1, 0], some (1/2)⟩] :
        List Episode),
      x ∈ ([⟨"e1", 1, "executor", "step one", [1, 0], some (1/2)⟩,
            ⟨"e2", 2, "executor", "step two", [1, 0], some (1/2)⟩,
            ⟨"e3", 3, "reviewer", "step three", [0, 1], some (1/2)⟩] :
            List Episode) ∧
        (fun a b : Episode => decide (a.embedding = b.embedding))
          ⟨"e1", 1, "executor", "step one", [1, 0], some (1/2)⟩ x = true) ∧
    (2 ≤ ([⟨"e1", 1, "executor", "step one", [1, 0], some (1/2)⟩,
           ⟨"e2", 2, "executor", "step two", [1, 0], some (1/2)⟩] :
           List Episode).length ∨
      ∃ i, (⟨"e1", 1, "executor", "step one", [1, 0], some (1/2)⟩ :
        Episode).importance = some i ∧ (7/10 : ℚ) ≤ i) :=
  (cluster_episodes_greedy (fun a b => decide (a.embedding = b.embedding))
      [⟨"e1", 1, "executor", "step one", [1, 0], some (1/2)⟩,
       ⟨"e2", 2, "executor", "step two", [1, 0], some (1/2)⟩,
       ⟨"e3", 3, "reviewer", "step three", [0, 1], some (1/2)⟩]).2
    ⟨"e1", 1, "executor", "step one", [1, 0], some (1/2)⟩
    [⟨"e2", 2, "executor", "step two", [1, 0], some (1/2)⟩]
    (by decide)

end Orchestrator
